import Mathlib

/-
Verification of the profile synthesizer and device-id helper of
`src/core/device.c` (subsurface).

C `double` arithmetic is modelled exactly: every floating-point value that the
code manipulates is a rational number, represented by the gcd-free fraction
type `dbl` below (numerator / denominator, denominator kept positive by the
smart constructors).  `dbl.toRat` maps a fraction to the rational number it
denotes; all analytical reasoning happens in `ℚ` through that map.  C `lrint`
under the default FE_TONEAREST rounding mode rounds half to even; `lrint`
below implements exactly that on fractions.  C `int` values are modelled by
`ℤ`, C truncating integer division by `Int.tdiv`.
-/

/-- Exact model of a C `double` value: an integer fraction `num / den`.
All constructors below keep `den` positive. -/
structure dbl where
  num : ℤ
  den : ℤ
deriving DecidableEq

def dbl.ofInt (n : ℤ) : dbl := ⟨n, 1⟩

instance : IntCast dbl := ⟨dbl.ofInt⟩

instance (n : ℕ) : OfNat dbl n := ⟨⟨(n : ℤ), 1⟩⟩

def dbl.add (a b : dbl) : dbl := ⟨a.num * b.den + b.num * a.den, a.den * b.den⟩

def dbl.sub (a b : dbl) : dbl := ⟨a.num * b.den - b.num * a.den, a.den * b.den⟩

def dbl.mul (a b : dbl) : dbl := ⟨a.num * b.num, a.den * b.den⟩

def dbl.inv (a : dbl) : dbl :=
  if 0 < a.num then ⟨a.den, a.num⟩
  else if a.num < 0 then ⟨-a.den, -a.num⟩
  else ⟨0, 1⟩

def dbl.div (a b : dbl) : dbl := a.mul b.inv

instance : Add dbl := ⟨dbl.add⟩

instance : Sub dbl := ⟨dbl.sub⟩

instance : Mul dbl := ⟨dbl.mul⟩

instance : Div dbl := ⟨dbl.div⟩

/-- The C macro `MAX(a, b)`, i.e. `(a) > (b) ? (a) : (b)`, on `dbl` values
(the comparison is by cross multiplication, valid for positive denominators). -/
def dbl.fmax (a b : dbl) : dbl :=
  if b.num * a.den < a.num * b.den then a else b

/-- The rational number denoted by a `dbl` fraction. -/
def dbl.toRat (a : dbl) : ℚ := (a.num : ℚ) / (a.den : ℚ)

/-- Denominator positivity invariant of `dbl` values. -/
def dbl.posden (a : dbl) : Prop := 0 < a.den

instance (a : dbl) : Decidable a.posden := Int.decLt 0 a.den

/-- C `lrint` on an exact fraction under the default FE_TONEAREST rounding
mode: round to nearest, ties to even.  `a.num.fdiv a.den` is the floor of the
fraction (for a positive denominator), and `2 * (a.num - n * a.den)` compared
with `a.den` decides whether the fractional part is below, above or exactly at
one half. -/
def lrint (a : dbl) : ℤ :=
  let n := a.num.fdiv a.den
  let r2 := 2 * (a.num - n * a.den)
  if r2 < a.den then n
  else if a.den < r2 then n + 1
  else if n % 2 = 0 then n else n + 1

/-- Round half to even on `ℚ`, the value `lrint` computes (see
`lrint_toRat`); used for reasoning only. -/
def rheQ (q : ℚ) : ℤ :=
  if q - ⌊q⌋ < 1/2 then ⌊q⌋
  else if 1/2 < q - ⌊q⌋ then ⌊q⌋ + 1
  else if ⌊q⌋ % 2 = 0 then ⌊q⌋ else ⌊q⌋ + 1

/-- Modelled from the spec of claim C3: round half away from zero on an exact
fraction (valid for a positive denominator).  This is the rounding the spec
ascribes to the solver; the code's `lrint` rounds half to even instead. -/
def roundHalfAway (a : dbl) : ℤ :=
  if 0 ≤ a.num then (2 * a.num + a.den).fdiv (2 * a.den)
  else -((-(2 * a.num) + a.den).fdiv (2 * a.den))

/-- One `struct sample`, restricted to the fields the synthesizer touches:
`time.seconds`, `depth.mm`, `bearing.degrees`, `ndl.seconds`. -/
structure sample where
  time : ℤ
  depth : ℤ
  bearing : ℤ
  ndl : ℤ
deriving DecidableEq

instance : Inhabited sample := ⟨⟨0, 0, 0, 0⟩⟩

/-- In-place field update of sample `i` of the buffer (`s[i].… = …;`). -/
def upd (s : List sample) (i : ℕ) (f : sample → sample) : List sample :=
  match s.get? i with
  | some x => s.set i (f x)
  | none => s

/-- Read of sample `i` of the buffer (`s[i]`); the buffers in this file always
have six entries, so the fallback is never hit on reachable indices. -/
def getS (s : List sample) (i : ℕ) : sample := s.getD i ⟨0, 0, 0, 0⟩

/-- The fields of `struct divecomputer` that `device.c` reads or writes. -/
structure divecomputer where
  duration : ℤ
  maxdepth : ℤ
  meandepth : ℤ
  samples : ℕ
  sample : List sample
  last_manual_time : ℤ
  deviceid : ℕ
  model : Option String
  serial : Option String
  fw_version : Option String
deriving DecidableEq

/-- `fill_samples` (device.c lines 65-86): the single-attempt closed-form
solver.  Returns `none` for the rejecting `return 0` path (no sample is
written) and `some` of the updated buffer for the accepting path. -/
def fill_samples (s : List sample) (max_d avg_d max_t : ℤ) (slope d_frac : dbl) :
    Option (List sample) :=
  let t_frac : dbl := (max_t : dbl) * ((1 : dbl) - (avg_d : dbl) / (max_d : dbl))
  let t1 : ℤ := lrint ((max_d : dbl) / slope)
  let t4 : ℤ := lrint ((max_t : dbl) - (t1 : dbl) * d_frac)
  let t3 : ℤ := lrint ((t4 : dbl) - (t_frac - (t1 : dbl)) / ((1 : dbl) - d_frac))
  let t2 : ℤ := lrint ((t3 : dbl) - (t1 : dbl) * ((1 : dbl) - d_frac))
  if t1 < 0 ∨ t1 > t2 ∨ t2 > t3 ∨ t3 > t4 ∨ t4 > max_t then
    none
  else
    some (upd (upd (upd (upd s
      1 (fun x => { x with time := t1, depth := max_d }))
      2 (fun x => { x with time := t2, depth := max_d }))
      3 (fun x => { x with time := t3, depth := lrint ((max_d : dbl) * d_frac) }))
      4 (fun x => { x with time := t4, depth := lrint ((max_d : dbl) * d_frac) }))

/-- `fill_samples_no_avg` (device.c lines 92-110): profile synthesis when no
average depth is available. -/
def fill_samples_no_avg (s : List sample) (max_d max_t : ℤ) (slope : dbl) :
    List sample :=
  if max_d < 10000 ∨ max_t < 600 then
    upd (upd s
      1 (fun x => { x with time := lrint ((max_d : dbl) / slope), depth := max_d }))
      2 (fun x => { x with time := max_t - lrint ((max_d : dbl) / slope), depth := max_d })
  else
    upd (upd (upd (upd s
      1 (fun x => { x with time := lrint ((max_d : dbl) / slope), depth := max_d }))
      2 (fun x => { x with time := max_t - lrint ((max_d : dbl) / slope) - 180, depth := max_d }))
      3 (fun x => { x with time := max_t - lrint ((5000 : dbl) / slope) - 180, depth := 5000 }))
      4 (fun x => { x with time := max_t - lrint ((5000 : dbl) / slope), depth := 5000 })

/-- The zeroed, sentinel-stamped six-sample skeleton fake_dc builds first:
`memset(fake, 0, …)`, `fake[5].time.seconds = max_t`, and `bearing = ndl = -1`
on all six samples. -/
def skeleton (max_t : ℤ) : List sample :=
  [⟨0, 0, -1, -1⟩, ⟨0, 0, -1, -1⟩, ⟨0, 0, -1, -1⟩,
   ⟨0, 0, -1, -1⟩, ⟨0, 0, -1, -1⟩, ⟨max_t, 0, -1, -1⟩]

/-- The `avg_d` sanitization of fake_dc (device.c lines 156-162), with C
truncating integer division. -/
def sanitize_avg (max_d avg_d : ℤ) : ℤ :=
  let a1 :=
    if avg_d < Int.tdiv max_d 10 ∨ avg_d ≥ max_d then
      let a := Int.tdiv (max_d + 10000) 3
      if a > max_d then Int.tdiv (max_d * 2) 3 else a
    else avg_d
  if a1 = 0 then 1 else a1

/-- The slope argument fake_dc passes to `fill_samples_no_avg`:
`MAX(2.0 * max_d / max_t, 5000.0 / 60)`. -/
def noavg_slope (max_d max_t : ℤ) : dbl :=
  dbl.fmax ((2 : dbl) * (max_d : dbl) / (max_t : dbl)) ((5000 : dbl) / (60 : dbl))

/-- `fake_dc` (device.c lines 112-188): the profile synthesizer. -/
def fake_dc (dc : divecomputer) : divecomputer :=
  let max_t := dc.duration
  let max_d := dc.maxdepth
  let avg_d := dc.meandepth
  let fake := skeleton max_t
  if max_t = 0 ∨ max_d = 0 then
    { dc with sample := fake, samples := 0 }
  else
    let dc1 := { dc with sample := fake, samples := 6, last_manual_time := dc.duration }
    if avg_d = 0 then
      let fake1 := fill_samples_no_avg fake max_d max_t (noavg_slope max_d max_t)
      if (getS fake1 3).time = 0 then
        { dc1 with samples := 4, sample := upd fake1 3 (fun x => { x with time := max_t }) }
      else
        { dc1 with sample := fake1 }
    else
      let avg_s := sanitize_avg max_d avg_d
      match fill_samples fake max_d avg_s max_t ((5000 : dbl) / (60 : dbl)) ((33 : dbl) / (100 : dbl)) with
      | some s => { dc1 with sample := s }
      | none =>
        match fill_samples fake max_d avg_s max_t ((10000 : dbl) / (60 : dbl)) ((10 : dbl) / (100 : dbl)) with
        | some s => { dc1 with sample := s }
        | none =>
          match fill_samples fake max_d avg_s max_t (10000 : dbl) ((1 : dbl) / (100 : dbl)) with
          | some s => { dc1 with sample := s }
          | none => dc1

/-- `match_id` (device.c lines 190-207): the callback that copies serial and
firmware from a matching device entry into the target record.  NULL strings
are `none`; `strcmp(a, b) == 0` is string equality. -/
def match_id (dc : divecomputer) (model : Option String) (deviceid : ℕ)
    (nickname serial firmware : Option String) : divecomputer :=
  let _ := nickname
  if dc.deviceid ≠ deviceid then dc
  else if model = none ∨ dc.model = none ∨ dc.model ≠ model then dc
  else
    let dc2 :=
      if serial ≠ none ∧ dc.serial = none then { dc with serial := serial } else dc
    if firmware ≠ none ∧ dc2.fw_version = none then { dc2 with fw_version := firmware }
    else dc2

/-- One device entry offered to the `match_id` callback. -/
structure dc_entry where
  model : Option String
  deviceid : ℕ
  nickname : Option String
  serial : Option String
  firmware : Option String
deriving DecidableEq

/-- Modelled from the spec: `call_for_each_dc` is declared in `device.h` but
defined outside this repository slice.  Per the spec it iterates over the
divecomputer entries of dives sharing the same logical dive and invokes the
callback on each entry's model, deviceid, nickname, serial and firmware; here
the callback is fixed to `match_id`, mutating the target record. -/
def call_for_each_dc (dc : divecomputer) (entries : List dc_entry) : divecomputer :=
  entries.foldl
    (fun d e => match_id d e.model e.deviceid e.nickname e.serial e.firmware) dc

/-- `set_dc_deviceid` (device.c lines 213-219). -/
def set_dc_deviceid (dc : divecomputer) (deviceid : ℕ) (entries : List dc_entry) :
    divecomputer :=
  if deviceid ≠ 0 then
    call_for_each_dc { dc with deviceid := deviceid } entries
  else dc

/-- Twice the trapezoidal area under the piecewise-linear profile through the
sample points (twice, to stay in `ℤ`): `2 * ∫ depth dt`. -/
def area2 : List sample → ℤ
  | a :: b :: rest => (b.time - a.time) * (a.depth + b.depth) + area2 (b :: rest)
  | _ => 0

/-- Time order between two samples. -/
def timeLE (a b : sample) : Prop := a.time ≤ b.time

instance : DecidableRel timeLE := fun a b => Int.decLe a.time b.time

/-- The profile invariants of claim C1 for a produced sample list: times
non-decreasing, first point `(0, 0)`, last point `(max_t, 0)`, every depth at
most `max_d`. -/
def profileOK (l : List sample) (max_d max_t : ℤ) : Prop :=
  List.Chain' timeLE l ∧
  (l.headD ⟨0, 0, 0, 0⟩).time = 0 ∧ (l.headD ⟨0, 0, 0, 0⟩).depth = 0 ∧
  (l.getLastD ⟨0, 0, 0, 0⟩).time = max_t ∧ (l.getLastD ⟨0, 0, 0, 0⟩).depth = 0 ∧
  ∀ x ∈ l, x.depth ≤ max_d

instance instChainTimeLE : (l : List sample) → Decidable (List.Chain' timeLE l)
  | [] => isTrue List.chain'_nil
  | [_] => isTrue (List.chain'_singleton _)
  | a :: b :: rest =>
    haveI := instChainTimeLE (b :: rest)
    decidable_of_iff (timeLE a b ∧ List.Chain' timeLE (b :: rest)) List.chain'_cons.symm

instance (l : List sample) (max_d max_t : ℤ) : Decidable (profileOK l max_d max_t) :=
  inferInstanceAs (Decidable (List.Chain' timeLE l ∧
    (l.headD ⟨0, 0, 0, 0⟩).time = 0 ∧ (l.headD ⟨0, 0, 0, 0⟩).depth = 0 ∧
    (l.getLastD ⟨0, 0, 0, 0⟩).time = max_t ∧ (l.getLastD ⟨0, 0, 0, 0⟩).depth = 0 ∧
    ∀ x ∈ l, x.depth ≤ max_d))

/-- Modelled from the words of claim C3: the solver exactly as the claim
states it, except that rounding is the code's round-half-to-even `lrint`
(the amended form of C3); acceptance is the claim's chained comparison. -/
def fill_samples_claim_rhe (s : List sample) (max_d avg_d max_t : ℤ) (slope d_frac : dbl) :
    Option (List sample) :=
  let t_frac : dbl := (max_t : dbl) * ((1 : dbl) - (avg_d : dbl) / (max_d : dbl))
  let t1 : ℤ := lrint ((max_d : dbl) / slope)
  let t4 : ℤ := lrint ((max_t : dbl) - (t1 : dbl) * d_frac)
  let t3 : ℤ := lrint ((t4 : dbl) - (t_frac - (t1 : dbl)) / ((1 : dbl) - d_frac))
  let t2 : ℤ := lrint ((t3 : dbl) - (t1 : dbl) * ((1 : dbl) - d_frac))
  if 0 ≤ t1 ∧ t1 ≤ t2 ∧ t2 ≤ t3 ∧ t3 ≤ t4 ∧ t4 ≤ max_t then
    some (upd (upd (upd (upd s
      1 (fun x => { x with time := t1, depth := max_d }))
      2 (fun x => { x with time := t2, depth := max_d }))
      3 (fun x => { x with time := t3, depth := lrint ((max_d : dbl) * d_frac) }))
      4 (fun x => { x with time := t4, depth := lrint ((max_d : dbl) * d_frac) }))
  else none

/-- Modelled from the words of claim C3: the solver as the claim literally
states it, with round-half-away-from-zero semantics. -/
def fill_samples_claim_away (s : List sample) (max_d avg_d max_t : ℤ) (slope d_frac : dbl) :
    Option (List sample) :=
  let t_frac : dbl := (max_t : dbl) * ((1 : dbl) - (avg_d : dbl) / (max_d : dbl))
  let t1 : ℤ := roundHalfAway ((max_d : dbl) / slope)
  let t4 : ℤ := roundHalfAway ((max_t : dbl) - (t1 : dbl) * d_frac)
  let t3 : ℤ := roundHalfAway ((t4 : dbl) - (t_frac - (t1 : dbl)) / ((1 : dbl) - d_frac))
  let t2 : ℤ := roundHalfAway ((t3 : dbl) - (t1 : dbl) * ((1 : dbl) - d_frac))
  if 0 ≤ t1 ∧ t1 ≤ t2 ∧ t2 ≤ t3 ∧ t3 ≤ t4 ∧ t4 ≤ max_t then
    some (upd (upd (upd (upd s
      1 (fun x => { x with time := t1, depth := max_d }))
      2 (fun x => { x with time := t2, depth := max_d }))
      3 (fun x => { x with time := t3, depth := roundHalfAway ((max_d : dbl) * d_frac) }))
      4 (fun x => { x with time := t4, depth := roundHalfAway ((max_d : dbl) * d_frac) }))
  else none

/-- Modelled from the words of claim C7: the sanitization as the claim
literally states it, with the heuristic default "capped at `2*max_depth/3`",
i.e. never exceeding that value. -/
def sanitize_avg_claim_cap (max_d avg_d : ℤ) : ℤ :=
  let a1 :=
    if avg_d < Int.tdiv max_d 10 ∨ avg_d ≥ max_d then
      min (Int.tdiv (max_d + 10000) 3) (Int.tdiv (max_d * 2) 3)
    else avg_d
  if a1 = 0 then 1 else a1

/-- Modelled from the amended words of claim C7: the default `(max_d+10000)/3`
is replaced by `2*max_d/3` only when it exceeds `max_d`. -/
def sanitize_avg_amended (max_d avg_d : ℤ) : ℤ :=
  let a1 :=
    if avg_d < Int.tdiv max_d 10 ∨ avg_d ≥ max_d then
      if Int.tdiv (max_d + 10000) 3 > max_d then Int.tdiv (max_d * 2) 3
      else Int.tdiv (max_d + 10000) 3
    else avg_d
  if a1 = 0 then 1 else a1

namespace dbl

theorem intCast_def (n : ℤ) : (n : dbl) = ⟨n, 1⟩ := rfl

theorem ofNat_def (n : ℕ) : (OfNat.ofNat n : dbl) = ⟨(n : ℤ), 1⟩ := rfl

theorem sub_def (a b : dbl) : a - b = dbl.sub a b := rfl

theorem mul_def (a b : dbl) : a * b = dbl.mul a b := rfl

theorem div_def (a b : dbl) : a / b = dbl.mul a b.inv := rfl

theorem posden_intCast (n : ℤ) : (n : dbl).posden := by
  rw [intCast_def]; exact Int.zero_lt_one

theorem posden_ofNat (n : ℕ) : (OfNat.ofNat n : dbl).posden := by
  rw [ofNat_def]; exact Int.zero_lt_one

theorem posden_sub {a b : dbl} (ha : a.posden) (hb : b.posden) : (a - b).posden :=
  mul_pos ha hb

theorem posden_mul {a b : dbl} (ha : a.posden) (hb : b.posden) : (a * b).posden :=
  mul_pos ha hb

theorem posden_inv (a : dbl) : a.inv.posden := by
  unfold dbl.inv dbl.posden
  split_ifs with h1 h2 <;> simp <;> omega

theorem posden_div {a : dbl} (ha : a.posden) (b : dbl) : (a / b).posden :=
  mul_pos ha (posden_inv b)

theorem posden_fmax {a b : dbl} (ha : a.posden) (hb : b.posden) : (dbl.fmax a b).posden := by
  unfold dbl.fmax; split_ifs <;> assumption

theorem toRat_intCast (n : ℤ) : (n : dbl).toRat = (n : ℚ) := by
  rw [intCast_def, toRat]; push_cast; exact div_one _

theorem toRat_ofNat (n : ℕ) : (OfNat.ofNat n : dbl).toRat = (n : ℚ) := by
  rw [ofNat_def, toRat]; push_cast; exact div_one _

theorem toRat_mul (a b : dbl) : (a * b).toRat = a.toRat * b.toRat := by
  rw [mul_def]; unfold dbl.mul toRat; push_cast
  rw [div_mul_div_comm]

theorem toRat_sub {a b : dbl} (ha : a.posden) (hb : b.posden) :
    (a - b).toRat = a.toRat - b.toRat := by
  have had : ((a.den : ℚ)) ≠ 0 := Int.cast_ne_zero.2 (ne_of_gt ha)
  have hbd : ((b.den : ℚ)) ≠ 0 := Int.cast_ne_zero.2 (ne_of_gt hb)
  rw [sub_def]; unfold dbl.sub toRat; push_cast
  field_simp
  ring

theorem toRat_inv (a : dbl) : a.inv.toRat = (a.toRat)⁻¹ := by
  unfold dbl.inv toRat
  split_ifs with h1 h2
  · simp only; rw [inv_div]
  · simp only; push_cast; rw [neg_div_neg_eq, inv_div]
  · have h0 : a.num = 0 := by omega
    simp [h0]

theorem toRat_div (a b : dbl) : (a / b).toRat = a.toRat / b.toRat := by
  rw [div_def, ← mul_def, toRat_mul, toRat_inv, div_eq_mul_inv]

theorem toRat_fmax {a b : dbl} (ha : a.posden) (hb : b.posden) :
    (dbl.fmax a b).toRat = max a.toRat b.toRat := by
  have had : (0 : ℚ) < (a.den : ℚ) := by exact_mod_cast ha
  have hbd : (0 : ℚ) < (b.den : ℚ) := by exact_mod_cast hb
  unfold dbl.fmax
  split_ifs with h
  · rw [max_eq_left]
    unfold toRat
    rw [div_le_div_iff₀ hbd had]
    exact_mod_cast le_of_lt h
  · rw [max_eq_right]
    unfold toRat
    rw [div_le_div_iff₀ had hbd]
    push_neg at h
    exact_mod_cast h

theorem fdiv_toRat {a : dbl} (ha : a.posden) : a.num.fdiv a.den = ⌊a.toRat⌋ := by
  obtain ⟨d, hd⟩ : ∃ d : ℕ, a.den = (d : ℤ) := ⟨a.den.toNat, (Int.toNat_of_nonneg ha.le).symm⟩
  rw [Int.fdiv_eq_ediv _ ha.le]
  unfold toRat
  rw [hd]
  rw [show ((d : ℤ) : ℚ) = (d : ℚ) by push_cast; rfl]
  exact (Rat.floor_intCast_div_natCast a.num d).symm

end dbl

theorem lrint_toRat {a : dbl} (ha : a.posden) : lrint a = rheQ a.toRat := by
  have hflr : a.num.fdiv a.den = ⌊a.toRat⌋ := dbl.fdiv_toRat ha
  have hdQ : (0 : ℚ) < (a.den : ℚ) := by exact_mod_cast ha
  have hfr : a.toRat - (⌊a.toRat⌋ : ℚ) =
      ((a.num : ℚ) - (⌊a.toRat⌋ : ℚ) * (a.den : ℚ)) / (a.den : ℚ) := by
    unfold dbl.toRat
    field_simp
    ring
  have key1 : 2 * (a.num - a.num.fdiv a.den * a.den) < a.den ↔
      a.toRat - (⌊a.toRat⌋ : ℚ) < 1/2 := by
    rw [hflr, hfr, div_lt_iff₀ hdQ]
    constructor <;> intro h
    · have h2 : ((2 * (a.num - ⌊a.toRat⌋ * a.den) : ℤ) : ℚ) < ((a.den : ℤ) : ℚ) := by
        exact_mod_cast h
      push_cast at h2
      linarith
    · have h2 : ((2 * (a.num - ⌊a.toRat⌋ * a.den) : ℤ) : ℚ) < ((a.den : ℤ) : ℚ) := by
        push_cast
        linarith
      exact_mod_cast h2
  have key2 : a.den < 2 * (a.num - a.num.fdiv a.den * a.den) ↔
      (1:ℚ)/2 < a.toRat - (⌊a.toRat⌋ : ℚ) := by
    rw [hflr, hfr, lt_div_iff₀ hdQ]
    constructor <;> intro h
    · have h2 : ((a.den : ℤ) : ℚ) < ((2 * (a.num - ⌊a.toRat⌋ * a.den) : ℤ) : ℚ) := by
        exact_mod_cast h
      push_cast at h2
      linarith
    · have h2 : ((a.den : ℤ) : ℚ) < ((2 * (a.num - ⌊a.toRat⌋ * a.den) : ℤ) : ℚ) := by
        push_cast
        linarith
      exact_mod_cast h2
  unfold lrint rheQ
  by_cases h1 : a.toRat - (⌊a.toRat⌋ : ℚ) < 1/2
  · rw [if_pos (key1.2 h1), if_pos h1, hflr]
  · rw [if_neg (fun hc => h1 (key1.1 hc)), if_neg h1]
    by_cases h2 : (1:ℚ)/2 < a.toRat - (⌊a.toRat⌋ : ℚ)
    · rw [if_pos (key2.2 h2), if_pos h2, hflr]
    · rw [if_neg (fun hc => h2 (key2.1 hc)), if_neg h2, hflr]

theorem rheQ_bounds (q : ℚ) : q - 1/2 ≤ (rheQ q : ℚ) ∧ (rheQ q : ℚ) ≤ q + 1/2 := by
  have h0 : (⌊q⌋ : ℚ) ≤ q := Int.floor_le q
  have h1 : q < ⌊q⌋ + 1 := Int.lt_floor_add_one q
  unfold rheQ
  split_ifs with a b c
  · constructor <;> linarith
  · push_cast
    constructor <;> linarith
  · rw [not_lt] at a b
    constructor <;> linarith
  · rw [not_lt] at a b
    push_cast
    constructor <;> linarith

theorem rheQ_mono {q r : ℚ} (h : q ≤ r) : rheQ q ≤ rheQ r := by
  have hf : ⌊q⌋ ≤ ⌊r⌋ := Int.floor_mono h
  by_cases heq : ⌊q⌋ = ⌊r⌋
  · unfold rheQ
    rw [heq]
    by_cases hA1 : q - (⌊r⌋ : ℚ) < 1/2
    · rw [if_pos hA1]
      split_ifs <;> omega
    · rw [if_neg hA1]
      have hq2 : 1/2 ≤ q - (⌊r⌋ : ℚ) := not_lt.1 hA1
      have hr2 : ¬ (r - (⌊r⌋ : ℚ) < 1/2) := not_lt.2 (by linarith)
      rw [if_neg hr2]
      by_cases hA2 : 1/2 < q - (⌊r⌋ : ℚ)
      · rw [if_pos hA2, if_pos (by linarith : 1/2 < r - (⌊r⌋ : ℚ))]
      · rw [if_neg hA2]
        by_cases hB2 : 1/2 < r - (⌊r⌋ : ℚ)
        · rw [if_pos hB2]
          split_ifs <;> omega
        · rw [if_neg hB2]
  · have hlt : ⌊q⌋ < ⌊r⌋ := lt_of_le_of_ne hf heq
    have l1 : rheQ q ≤ ⌊q⌋ + 1 := by unfold rheQ; split_ifs <;> omega
    have l2 : ⌊r⌋ ≤ rheQ r := by unfold rheQ; split_ifs <;> omega
    omega

theorem rheQ_nonneg {q : ℚ} (h : 0 ≤ q) : 0 ≤ rheQ q := by
  have hb := (rheQ_bounds q).1
  have : (-1 : ℚ) < (rheQ q : ℚ) := by linarith
  have : (-1 : ℤ) < rheQ q := by exact_mod_cast this
  omega

theorem rheQ_le_int {q : ℚ} {n : ℤ} (h : q ≤ (n : ℚ)) : rheQ q ≤ n := by
  have hb := (rheQ_bounds q).2
  have : (rheQ q : ℚ) < (n : ℚ) + 1 := by linarith
  have : rheQ q < n + 1 := by exact_mod_cast this
  omega

theorem rheQ_intCast (n : ℤ) : rheQ (n : ℚ) = n := by
  unfold rheQ
  rw [Int.floor_intCast]
  rw [if_pos (by norm_num)]

/-- Rejection-style and acceptance-style conditionals agree when the
conditions are complementary. -/
theorem ite_none_some {α : Type} {C Cp : Prop} [Decidable C] [Decidable Cp]
    (h : Cp ↔ ¬ C) (L : α) :
    (if C then (none : Option α) else some L) = (if Cp then some L else none) := by
  by_cases hc : C
  · rw [if_pos hc, if_neg (fun hcp => (h.1 hcp) hc)]
  · rw [if_neg hc, if_pos (h.2 hc)]

/-- C6: with `max_time = 0` or `max_depth = 0`, fake_dc sets the sample count
to 0 and returns with only the zeroed, sentinel-stamped skeleton installed;
`last_manual_time` and every other field are untouched. -/
theorem fake_dc_zero_input (dc : divecomputer)
    (h : dc.duration = 0 ∨ dc.maxdepth = 0) :
    fake_dc dc = { dc with sample := skeleton dc.duration, samples := 0 } := by
  unfold fake_dc
  rw [if_pos h]

/-- C6 witness. -/
theorem fake_dc_zero_input_witness :
    ((⟨0, 5000, 0, 0, [], 7, 3, none, none, none⟩ : divecomputer).duration = 0 ∨
      (⟨0, 5000, 0, 0, [], 7, 3, none, none, none⟩ : divecomputer).maxdepth = 0) ∧
    fake_dc ⟨0, 5000, 0, 0, [], 7, 3, none, none, none⟩ =
      { (⟨0, 5000, 0, 0, [], 7, 3, none, none, none⟩ : divecomputer) with
        sample := skeleton 0, samples := 0 } :=
  ⟨Or.inl rfl, fake_dc_zero_input _ (Or.inl rfl)⟩

/-- C7 counterexample: at `max_depth = 6000` (with any out-of-range
`avg_depth`, here 100), the code keeps the heuristic default
`(6000+10000)/3 = 5333`, which exceeds the claimed cap `2*6000/3 = 4000`;
the default is in fact replaced only when it exceeds `max_depth` itself. -/
theorem sanitize_avg_cap_cex :
    sanitize_avg 6000 100 = 5333 ∧ sanitize_avg_claim_cap 6000 100 = 4000 ∧
    sanitize_avg 6000 100 ≠ sanitize_avg_claim_cap 6000 100 := by decide

/-- C7 amended: the out-of-range `avg_depth` is replaced by the default
`(max_depth+10000)/3`, with `2*max_depth/3` substituted only when that default
exceeds `max_depth`; a zero result is clamped to 1; an in-range `avg_depth` is
used unchanged. -/
theorem sanitize_avg_amended_correct (max_d avg_d : ℤ) :
    sanitize_avg max_d avg_d = sanitize_avg_amended max_d avg_d := rfl

/-- C3 counterexample: at `max_depth = 5000`, `slope = 10000` (the attempt-3
parameters), `max_depth / slope = 1/2` exactly, and the code's `lrint`
(round half to even) gives `t1 = 0` where the claim's
round-half-away-from-zero semantics give `t1 = 1`; the produced sample
sequences differ. -/
theorem fill_samples_rounding_cex :
    fill_samples (skeleton 600) 5000 2500 600 (10000 : dbl) ((1 : dbl) / (100 : dbl)) ≠
    fill_samples_claim_away (skeleton 600) 5000 2500 600 (10000 : dbl) ((1 : dbl) / (100 : dbl)) := by
  decide

/-- C3 amended: `fill_samples` computes `t1`, `t4`, `t3`, `t2` by exactly the
claimed formulas, but with round-half-to-even (C `lrint` under the default
rounding mode) instead of round-half-away-from-zero; it accepts exactly when
`0 ≤ t1 ≤ t2 ≤ t3 ≤ t4 ≤ max_time`, writes samples 1..4 as claimed on
acceptance and writes nothing on rejection. -/
theorem fill_samples_formulas (s : List sample) (max_d avg_d max_t : ℤ)
    (slope d_frac : dbl) (hm : 0 < max_d) (ha : 0 < avg_d)
    (hsp : slope.posden) (hs : 0 < slope.num)
    (hdp : d_frac.posden) (h0 : 0 < d_frac.num) (h1 : d_frac.num < d_frac.den) :
    fill_samples s max_d avg_d max_t slope d_frac =
      fill_samples_claim_rhe s max_d avg_d max_t slope d_frac := by
  unfold fill_samples fill_samples_claim_rhe
  exact ite_none_some (by omega) _

/-- C3 amended witness (the attempt-1 parameters at the spec's own worked
example `max_depth = 18000`, `avg_depth = 9000`, `max_time = 3000`). -/
theorem fill_samples_formulas_witness :
    (0 < (18000 : ℤ) ∧ 0 < (9000 : ℤ) ∧
      ((5000 : dbl) / (60 : dbl)).posden ∧ 0 < ((5000 : dbl) / (60 : dbl)).num ∧
      ((33 : dbl) / (100 : dbl)).posden ∧ 0 < ((33 : dbl) / (100 : dbl)).num ∧
      ((33 : dbl) / (100 : dbl)).num < ((33 : dbl) / (100 : dbl)).den) ∧
    fill_samples (skeleton 3000) 18000 9000 3000 ((5000 : dbl) / (60 : dbl)) ((33 : dbl) / (100 : dbl)) =
      fill_samples_claim_rhe (skeleton 3000) 18000 9000 3000 ((5000 : dbl) / (60 : dbl)) ((33 : dbl) / (100 : dbl)) :=
  ⟨by decide,
    fill_samples_formulas (skeleton 3000) 18000 9000 3000 _ _ (by decide) (by decide)
      (by decide) (by decide) (by decide) (by decide) (by decide)⟩

/-- C4 counterexample: at `avg_depth = 0`, `max_depth = 8000`,
`max_time = 500` the reported sample count is 4, not 6 as claimed (the
trapezoid branch always leaves `sample[3].time = 0`, so fake_dc collapses the
profile to 4 points). -/
theorem fake_dc_shallow_count_cex :
    (fake_dc ⟨500, 8000, 0, 0, [], 0, 0, none, none, none⟩).samples ≠ 6 := by decide

/-- C4 amended: at `avg_depth = 0`, `max_depth = 8000`, `max_time = 500` the
trapezoid branch fills only samples 1 and 2 with nonzero data, the count is
collapsed to 4 and `sample[3].time` is overwritten to `max_time`, so the
counted profile is the 4-point shape bounded by samples at time 0 and
`max_time`. -/
theorem fake_dc_shallow_short_example :
    fake_dc ⟨500, 8000, 0, 0, [], 0, 0, none, none, none⟩ =
      ⟨500, 8000, 0, 4,
        [⟨0, 0, -1, -1⟩, ⟨96, 8000, -1, -1⟩, ⟨404, 8000, -1, -1⟩,
         ⟨500, 0, -1, -1⟩, ⟨0, 0, -1, -1⟩, ⟨500, 0, -1, -1⟩],
        500, 0, none, none, none⟩ := by decide

theorem match_id_serial_of_ne {dc : divecomputer} (h : dc.serial ≠ none)
    (model : Option String) (did : ℕ) (nick ser fw : Option String) :
    (match_id dc model did nick ser fw).serial = dc.serial := by
  simp only [match_id]
  by_cases h1 : dc.deviceid ≠ did
  · rw [if_pos h1]
  · rw [if_neg h1]
    by_cases h2 : model = none ∨ dc.model = none ∨ dc.model ≠ model
    · rw [if_pos h2]
    · rw [if_neg h2]
      have h3 : ¬ (ser ≠ none ∧ dc.serial = none) := fun hc => h hc.2
      rw [if_neg h3]
      by_cases h4 : fw ≠ none ∧ dc.fw_version = none
      · rw [if_pos h4]
      · rw [if_neg h4]

theorem match_id_fw_of_ne {dc : divecomputer} (h : dc.fw_version ≠ none)
    (model : Option String) (did : ℕ) (nick ser fw : Option String) :
    (match_id dc model did nick ser fw).fw_version = dc.fw_version := by
  simp only [match_id]
  by_cases h1 : dc.deviceid ≠ did
  · rw [if_pos h1]
  · rw [if_neg h1]
    by_cases h2 : model = none ∨ dc.model = none ∨ dc.model ≠ model
    · rw [if_pos h2]
    · rw [if_neg h2]
      have hdc2 : (if ser ≠ none ∧ dc.serial = none then { dc with serial := ser }
          else dc).fw_version = dc.fw_version := by
        split_ifs <;> rfl
      have h4 : ¬ (fw ≠ none ∧ (if ser ≠ none ∧ dc.serial = none
          then { dc with serial := ser } else dc).fw_version = none) := by
        rw [hdc2]
        exact fun hc => h hc.2
      rw [if_neg h4]
      exact hdc2

theorem call_for_each_dc_serial {dc : divecomputer} (h : dc.serial ≠ none)
    (entries : List dc_entry) :
    (call_for_each_dc dc entries).serial = dc.serial := by
  induction entries generalizing dc with
  | nil => rfl
  | cons e rest ih =>
    unfold call_for_each_dc at *
    rw [List.foldl_cons, ih, match_id_serial_of_ne h]
    rw [match_id_serial_of_ne h]
    exact h

theorem call_for_each_dc_fw {dc : divecomputer} (h : dc.fw_version ≠ none)
    (entries : List dc_entry) :
    (call_for_each_dc dc entries).fw_version = dc.fw_version := by
  induction entries generalizing dc with
  | nil => rfl
  | cons e rest ih =>
    unfold call_for_each_dc at *
    rw [List.foldl_cons, ih, match_id_fw_of_ne h]
    rw [match_id_fw_of_ne h]
    exact h

/-- C9: `set_dc_deviceid` with `deviceid = 0` leaves the record entirely
unchanged, and with any `deviceid` it never overwrites an already non-empty
serial or firmware field, whatever the candidate entries offer. -/
theorem set_dc_deviceid_frame :
    (∀ (dc : divecomputer) (entries : List dc_entry),
      set_dc_deviceid dc 0 entries = dc) ∧
    (∀ (dc : divecomputer) (d : ℕ) (entries : List dc_entry),
      dc.serial ≠ none → (set_dc_deviceid dc d entries).serial = dc.serial) ∧
    (∀ (dc : divecomputer) (d : ℕ) (entries : List dc_entry),
      dc.fw_version ≠ none → (set_dc_deviceid dc d entries).fw_version = dc.fw_version) := by
  refine ⟨fun dc entries => by simp [set_dc_deviceid], ?_, ?_⟩
  · intro dc d entries h
    unfold set_dc_deviceid
    split_ifs with hd
    · exact call_for_each_dc_serial
        (show ({ dc with deviceid := d } : divecomputer).serial ≠ none from h) entries
    · rfl
  · intro dc d entries h
    unfold set_dc_deviceid
    split_ifs with hd
    · exact call_for_each_dc_fw
        (show ({ dc with deviceid := d } : divecomputer).fw_version ≠ none from h) entries
    · rfl

/-- C9 witness: a record with serial and firmware already set keeps them even
when a matching entry offers different values. -/
theorem set_dc_deviceid_frame_witness :
    ((⟨0, 0, 0, 0, [], 0, 7, some "m", some "s1", some "f1"⟩ :
        divecomputer).serial ≠ none ∧
      (⟨0, 0, 0, 0, [], 0, 7, some "m", some "s1", some "f1"⟩ :
        divecomputer).fw_version ≠ none) ∧
    set_dc_deviceid ⟨0, 0, 0, 0, [], 0, 7, some "m", some "s1", some "f1"⟩ 0
      [⟨some "m", 7, none, some "s2", some "f2"⟩] =
      ⟨0, 0, 0, 0, [], 0, 7, some "m", some "s1", some "f1"⟩ ∧
    (set_dc_deviceid ⟨0, 0, 0, 0, [], 0, 7, some "m", some "s1", some "f1"⟩ 7
      [⟨some "m", 7, none, some "s2", some "f2"⟩]).serial = some "s1" ∧
    (set_dc_deviceid ⟨0, 0, 0, 0, [], 0, 7, some "m", some "s1", some "f1"⟩ 7
      [⟨some "m", 7, none, some "s2", some "f2"⟩]).fw_version = some "f1" :=
  ⟨by decide,
    set_dc_deviceid_frame.1 _ _,
    set_dc_deviceid_frame.2.1 _ 7 _ (by decide),
    set_dc_deviceid_frame.2.2 _ 7 _ (by decide)⟩

/-- C10: `match_id` copies nothing (the record is unchanged) unless the
candidate's deviceid equals the record's and both model strings are non-null
and equal; in particular a null model on either side blocks the copy even
when the deviceids match. -/
theorem match_id_requires_model_match (dc : divecomputer) (model : Option String)
    (did : ℕ) (nick ser fw : Option String)
    (h : ¬ (dc.deviceid = did ∧ ∃ m : String, model = some m ∧ dc.model = some m)) :
    match_id dc model did nick ser fw = dc := by
  simp only [match_id]
  by_cases h1 : dc.deviceid ≠ did
  · rw [if_pos h1]
  · rw [if_neg h1]
    rw [not_ne_iff] at h1
    have h2 : model = none ∨ dc.model = none ∨ dc.model ≠ model := by
      by_contra hc
      push_neg at hc
      obtain ⟨hm, hdm, heq⟩ := hc
      obtain ⟨m, hm'⟩ := Option.ne_none_iff_exists'.1 hm
      exact h ⟨h1, m, hm', heq ▸ hm'⟩
    rw [if_pos h2]

/-- C10 witness: matching deviceid but a null record model leaves the record
unchanged even though the entry offers serial and firmware. -/
theorem match_id_requires_model_match_witness :
    (¬ ((⟨0, 0, 0, 0, [], 0, 7, none, none, none⟩ : divecomputer).deviceid = 7 ∧
      ∃ m : String, (some "m" : Option String) = some m ∧
        (⟨0, 0, 0, 0, [], 0, 7, none, none, none⟩ : divecomputer).model = some m)) ∧
    match_id ⟨0, 0, 0, 0, [], 0, 7, none, none, none⟩ (some "m") 7 none
      (some "s2") (some "f2") = ⟨0, 0, 0, 0, [], 0, 7, none, none, none⟩ :=
  ⟨fun hc => by
      obtain ⟨-, m, -, hdm⟩ := hc
      exact Option.noConfusion hdm,
    match_id_requires_model_match _ _ _ _ _ _ (fun hc => by
      obtain ⟨-, m, -, hdm⟩ := hc
      exact Option.noConfusion hdm)⟩

/-- C8: when `max_time ≠ 0`, `max_depth ≠ 0`, `avg_depth ≠ 0` and all three
solver attempts (slope 5000/60 with d_frac 0.33, slope 10000/60 with d_frac
0.10, slope 10000 with d_frac 0.01, in that order) reject, fake_dc returns
with the zeroed 6-sample skeleton: count still 6, samples 0..4 at time 0 and
depth 0, sample 5 at `(max_time, 0)`, bearing and ndl sentinels -1 on all six,
`last_manual_time` set to the duration, and no error signalled. -/
theorem fake_dc_all_attempts_fail (dc : divecomputer)
    (hT : dc.duration ≠ 0) (hM : dc.maxdepth ≠ 0) (hA : dc.meandepth ≠ 0)
    (h1 : fill_samples (skeleton dc.duration) dc.maxdepth
      (sanitize_avg dc.maxdepth dc.meandepth) dc.duration
      ((5000 : dbl) / (60 : dbl)) ((33 : dbl) / (100 : dbl)) = none)
    (h2 : fill_samples (skeleton dc.duration) dc.maxdepth
      (sanitize_avg dc.maxdepth dc.meandepth) dc.duration
      ((10000 : dbl) / (60 : dbl)) ((10 : dbl) / (100 : dbl)) = none)
    (h3 : fill_samples (skeleton dc.duration) dc.maxdepth
      (sanitize_avg dc.maxdepth dc.meandepth) dc.duration
      (10000 : dbl) ((1 : dbl) / (100 : dbl)) = none) :
    fake_dc dc = { dc with
      sample := [⟨0, 0, -1, -1⟩, ⟨0, 0, -1, -1⟩, ⟨0, 0, -1, -1⟩,
        ⟨0, 0, -1, -1⟩, ⟨0, 0, -1, -1⟩, ⟨dc.duration, 0, -1, -1⟩],
      samples := 6,
      last_manual_time := dc.duration } := by
  simp only [fake_dc]
  rw [if_neg (show ¬ (dc.duration = 0 ∨ dc.maxdepth = 0) from fun hc =>
    hc.elim hT hM)]
  rw [if_neg hA, h1, h2, h3]
  rfl

/-- C8 witness: for `max_depth = 100000`, `avg_depth = 50000` (in range, so
used unchanged), `max_time = 1` all three attempts reject. -/
theorem fake_dc_all_attempts_fail_witness :
    ((⟨1, 100000, 50000, 0, [], 0, 0, none, none, none⟩ : divecomputer).duration ≠ 0 ∧
      (⟨1, 100000, 50000, 0, [], 0, 0, none, none, none⟩ : divecomputer).maxdepth ≠ 0 ∧
      (⟨1, 100000, 50000, 0, [], 0, 0, none, none, none⟩ : divecomputer).meandepth ≠ 0 ∧
      fill_samples (skeleton 1) 100000 (sanitize_avg 100000 50000) 1
        ((5000 : dbl) / (60 : dbl)) ((33 : dbl) / (100 : dbl)) = none ∧
      fill_samples (skeleton 1) 100000 (sanitize_avg 100000 50000) 1
        ((10000 : dbl) / (60 : dbl)) ((10 : dbl) / (100 : dbl)) = none ∧
      fill_samples (skeleton 1) 100000 (sanitize_avg 100000 50000) 1
        (10000 : dbl) ((1 : dbl) / (100 : dbl)) = none) ∧
    fake_dc ⟨1, 100000, 50000, 0, [], 0, 0, none, none, none⟩ =
      { (⟨1, 100000, 50000, 0, [], 0, 0, none, none, none⟩ : divecomputer) with
        sample := [⟨0, 0, -1, -1⟩, ⟨0, 0, -1, -1⟩, ⟨0, 0, -1, -1⟩,
          ⟨0, 0, -1, -1⟩, ⟨0, 0, -1, -1⟩, ⟨1, 0, -1, -1⟩],
        samples := 6,
        last_manual_time := 1 } :=
  ⟨by decide,
    fake_dc_all_attempts_fail _ (by decide) (by decide) (by decide)
      (by decide) (by decide) (by decide)⟩

theorem noavg_slope_posden (max_d max_t : ℤ) : (noavg_slope max_d max_t).posden :=
  dbl.posden_fmax
    (dbl.posden_div (dbl.posden_mul (dbl.posden_ofNat 2) (dbl.posden_intCast max_d)) _)
    (dbl.posden_div (dbl.posden_ofNat 5000) _)

theorem noavg_slope_toRat (max_d max_t : ℤ) :
    (noavg_slope max_d max_t).toRat =
      max (2 * (max_d : ℚ) / (max_t : ℚ)) (5000 / 60) := by
  unfold noavg_slope
  rw [dbl.toRat_fmax
    (dbl.posden_div (dbl.posden_mul (dbl.posden_ofNat 2) (dbl.posden_intCast max_d)) _)
    (dbl.posden_div (dbl.posden_ofNat 5000) _)]
  rw [dbl.toRat_div, dbl.toRat_div, dbl.toRat_mul, dbl.toRat_ofNat, dbl.toRat_ofNat,
    dbl.toRat_ofNat, dbl.toRat_intCast, dbl.toRat_intCast]
  norm_num

theorem noavg_slope_pos (max_d max_t : ℤ) : 0 < (noavg_slope max_d max_t).toRat := by
  rw [noavg_slope_toRat]
  exact lt_of_lt_of_le (by norm_num) (le_max_right _ _)

theorem noavg_slope_ge (max_d max_t : ℤ) :
    (5000 : ℚ) / 60 ≤ (noavg_slope max_d max_t).toRat := by
  rw [noavg_slope_toRat]
  exact le_max_right _ _

theorem lrint_5000_noavg_bounds (max_d max_t : ℤ) :
    0 ≤ lrint ((5000 : dbl) / noavg_slope max_d max_t) ∧
    lrint ((5000 : dbl) / noavg_slope max_d max_t) ≤ 60 := by
  have hpd : ((5000 : dbl) / noavg_slope max_d max_t).posden :=
    dbl.posden_div (dbl.posden_ofNat 5000) _
  have heval : lrint ((5000 : dbl) / noavg_slope max_d max_t) =
      rheQ ((5000 : ℚ) / (noavg_slope max_d max_t).toRat) := by
    rw [lrint_toRat hpd, dbl.toRat_div, dbl.toRat_ofNat]
    norm_num
  have hpos := noavg_slope_pos max_d max_t
  have hge := noavg_slope_ge max_d max_t
  constructor
  · rw [heval]
    exact rheQ_nonneg (div_nonneg (by norm_num) hpos.le)
  · rw [heval]
    refine rheQ_le_int ?_
    rw [div_le_iff₀ hpos]
    push_cast
    linarith

theorem lrint_maxd_noavg_nonneg (max_d max_t : ℤ) (hM : 0 ≤ max_d) :
    0 ≤ lrint ((max_d : dbl) / noavg_slope max_d max_t) := by
  have hpd : ((max_d : dbl) / noavg_slope max_d max_t).posden :=
    dbl.posden_div (dbl.posden_intCast max_d) _
  rw [lrint_toRat hpd, dbl.toRat_div, dbl.toRat_intCast]
  exact rheQ_nonneg (div_nonneg (by exact_mod_cast hM) (noavg_slope_pos max_d max_t).le)

theorem lrint_5000_le_maxd_noavg (max_d max_t : ℤ) (hM : 5000 ≤ max_d) :
    lrint ((5000 : dbl) / noavg_slope max_d max_t) ≤
      lrint ((max_d : dbl) / noavg_slope max_d max_t) := by
  have hp5 : ((5000 : dbl) / noavg_slope max_d max_t).posden :=
    dbl.posden_div (dbl.posden_ofNat 5000) _
  have hpM : ((max_d : dbl) / noavg_slope max_d max_t).posden :=
    dbl.posden_div (dbl.posden_intCast max_d) _
  rw [lrint_toRat hp5, lrint_toRat hpM, dbl.toRat_div, dbl.toRat_div,
    dbl.toRat_ofNat, dbl.toRat_intCast]
  refine rheQ_mono ?_
  have hpos := noavg_slope_pos max_d max_t
  exact (div_le_div_iff_of_pos_right hpos).2 (by exact_mod_cast hM)

theorem fake_dc_no_avg_deep (dc : divecomputer) (hA : dc.meandepth = 0)
    (hM : 10000 ≤ dc.maxdepth) (hT : 600 ≤ dc.duration) :
    fake_dc dc = { dc with
      sample := [⟨0, 0, -1, -1⟩,
        ⟨lrint ((dc.maxdepth : dbl) / noavg_slope dc.maxdepth dc.duration),
          dc.maxdepth, -1, -1⟩,
        ⟨dc.duration - lrint ((dc.maxdepth : dbl) / noavg_slope dc.maxdepth dc.duration) - 180,
          dc.maxdepth, -1, -1⟩,
        ⟨dc.duration - lrint ((5000 : dbl) / noavg_slope dc.maxdepth dc.duration) - 180,
          5000, -1, -1⟩,
        ⟨dc.duration - lrint ((5000 : dbl) / noavg_slope dc.maxdepth dc.duration),
          5000, -1, -1⟩,
        ⟨dc.duration, 0, -1, -1⟩],
      samples := 6, last_manual_time := dc.duration } := by
  have h5 := lrint_5000_noavg_bounds dc.maxdepth dc.duration
  have hlist : fill_samples_no_avg (skeleton dc.duration) dc.maxdepth dc.duration
      (noavg_slope dc.maxdepth dc.duration) =
      [⟨0, 0, -1, -1⟩,
        ⟨lrint ((dc.maxdepth : dbl) / noavg_slope dc.maxdepth dc.duration),
          dc.maxdepth, -1, -1⟩,
        ⟨dc.duration - lrint ((dc.maxdepth : dbl) / noavg_slope dc.maxdepth dc.duration) - 180,
          dc.maxdepth, -1, -1⟩,
        ⟨dc.duration - lrint ((5000 : dbl) / noavg_slope dc.maxdepth dc.duration) - 180,
          5000, -1, -1⟩,
        ⟨dc.duration - lrint ((5000 : dbl) / noavg_slope dc.maxdepth dc.duration),
          5000, -1, -1⟩,
        ⟨dc.duration, 0, -1, -1⟩] := by
    unfold fill_samples_no_avg
    rw [if_neg (show ¬ (dc.maxdepth < 10000 ∨ dc.duration < 600) by omega)]
    rfl
  simp only [fake_dc]
  rw [if_neg (show ¬ (dc.duration = 0 ∨ dc.maxdepth = 0) by omega), if_pos hA, hlist]
  rw [if_neg (show ¬ (getS [⟨0, 0, -1, -1⟩,
        ⟨lrint ((dc.maxdepth : dbl) / noavg_slope dc.maxdepth dc.duration),
          dc.maxdepth, -1, -1⟩,
        ⟨dc.duration - lrint ((dc.maxdepth : dbl) / noavg_slope dc.maxdepth dc.duration) - 180,
          dc.maxdepth, -1, -1⟩,
        ⟨dc.duration - lrint ((5000 : dbl) / noavg_slope dc.maxdepth dc.duration) - 180,
          5000, -1, -1⟩,
        ⟨dc.duration - lrint ((5000 : dbl) / noavg_slope dc.maxdepth dc.duration),
          5000, -1, -1⟩,
        ⟨dc.duration, 0, -1, -1⟩] 3).time = 0 by
    show ¬ (dc.duration - lrint ((5000 : dbl) / noavg_slope dc.maxdepth dc.duration) - 180 = 0)
    omega)]

/-- C5: for `avg_depth = 0`, `max_depth ≥ 10000` mm, `max_time ≥ 600` s,
fake_dc builds a 6-point profile with
`slope = max(2*max_depth/max_time, 5000/60)`: sample 1 is
`(round(max_depth/slope), max_depth)`, samples 3 and 4 both sit at 5000 mm,
the 5000 mm hold lasts exactly 180 s, and sample 4 ends at
`max_time - round(5000/slope)` before the final ascent to depth 0 at
`max_time`. -/
theorem fake_dc_deep_long (dc : divecomputer) (hA : dc.meandepth = 0)
    (hM : 10000 ≤ dc.maxdepth) (hT : 600 ≤ dc.duration) :
    (fake_dc dc).samples = 6 ∧
    getS (fake_dc dc).sample 1 =
      ⟨lrint ((dc.maxdepth : dbl) / noavg_slope dc.maxdepth dc.duration),
        dc.maxdepth, -1, -1⟩ ∧
    (getS (fake_dc dc).sample 3).depth = 5000 ∧
    (getS (fake_dc dc).sample 4).depth = 5000 ∧
    (getS (fake_dc dc).sample 4).time - (getS (fake_dc dc).sample 3).time = 180 ∧
    (getS (fake_dc dc).sample 4).time =
      dc.duration - lrint ((5000 : dbl) / noavg_slope dc.maxdepth dc.duration) ∧
    getS (fake_dc dc).sample 5 = ⟨dc.duration, 0, -1, -1⟩ := by
  rw [fake_dc_no_avg_deep dc hA hM hT]
  refine ⟨rfl, rfl, rfl, rfl, ?_, rfl, rfl⟩
  show dc.duration - lrint ((5000 : dbl) / noavg_slope dc.maxdepth dc.duration) -
    (dc.duration - lrint ((5000 : dbl) / noavg_slope dc.maxdepth dc.duration) - 180) = 180
  omega

/-- C5 witness (the spec's own deep-and-long example
`max_depth = 30000`, `max_time = 1800`). -/
theorem fake_dc_deep_long_witness :
    ((⟨1800, 30000, 0, 0, [], 0, 0, none, none, none⟩ : divecomputer).meandepth = 0 ∧
      10000 ≤ (⟨1800, 30000, 0, 0, [], 0, 0, none, none, none⟩ : divecomputer).maxdepth ∧
      600 ≤ (⟨1800, 30000, 0, 0, [], 0, 0, none, none, none⟩ : divecomputer).duration) ∧
    ((fake_dc ⟨1800, 30000, 0, 0, [], 0, 0, none, none, none⟩).samples = 6 ∧
    getS (fake_dc ⟨1800, 30000, 0, 0, [], 0, 0, none, none, none⟩).sample 1 =
      ⟨lrint ((30000 : ℤ) / noavg_slope 30000 1800), 30000, -1, -1⟩ ∧
    (getS (fake_dc ⟨1800, 30000, 0, 0, [], 0, 0, none, none, none⟩).sample 3).depth = 5000 ∧
    (getS (fake_dc ⟨1800, 30000, 0, 0, [], 0, 0, none, none, none⟩).sample 4).depth = 5000 ∧
    (getS (fake_dc ⟨1800, 30000, 0, 0, [], 0, 0, none, none, none⟩).sample 4).time -
      (getS (fake_dc ⟨1800, 30000, 0, 0, [], 0, 0, none, none, none⟩).sample 3).time = 180 ∧
    (getS (fake_dc ⟨1800, 30000, 0, 0, [], 0, 0, none, none, none⟩).sample 4).time =
      1800 - lrint ((5000 : dbl) / noavg_slope 30000 1800) ∧
    getS (fake_dc ⟨1800, 30000, 0, 0, [], 0, 0, none, none, none⟩).sample 5 =
      ⟨1800, 0, -1, -1⟩) :=
  ⟨by decide, fake_dc_deep_long _ rfl (by decide) (by decide)⟩

theorem profileOK_six {t1 t2 t3 t4 T M d1 d2 d3 d4 b0 n0 b1 n1 b2 n2 b3 n3 b4 n4 b5 n5 : ℤ}
    (h1 : 0 ≤ t1) (h2 : t1 ≤ t2) (h3 : t2 ≤ t3) (h4 : t3 ≤ t4) (h5 : t4 ≤ T)
    (hd1 : d1 ≤ M) (hd2 : d2 ≤ M) (hd3 : d3 ≤ M) (hd4 : d4 ≤ M) (hM : 0 ≤ M) :
    profileOK [⟨0, 0, b0, n0⟩, ⟨t1, d1, b1, n1⟩, ⟨t2, d2, b2, n2⟩,
      ⟨t3, d3, b3, n3⟩, ⟨t4, d4, b4, n4⟩, ⟨T, 0, b5, n5⟩] M T := by
  refine ⟨?_, rfl, rfl, rfl, rfl, ?_⟩
  · exact List.chain'_cons.2 ⟨h1, List.chain'_cons.2 ⟨h2, List.chain'_cons.2 ⟨h3,
      List.chain'_cons.2 ⟨h4, List.chain'_cons.2 ⟨h5, List.chain'_singleton _⟩⟩⟩⟩⟩
  · intro x hx
    simp only [List.mem_cons, List.not_mem_nil, or_false] at hx
    rcases hx with rfl | rfl | rfl | rfl | rfl | rfl
    exacts [hM, hd1, hd2, hd3, hd4, hM]

theorem profileOK_four {t1 t2 T M d1 d2 b0 n0 b1 n1 b2 n2 b3 n3 : ℤ}
    (h1 : 0 ≤ t1) (h2 : t1 ≤ t2) (h3 : t2 ≤ T)
    (hd1 : d1 ≤ M) (hd2 : d2 ≤ M) (hM : 0 ≤ M) :
    profileOK [⟨0, 0, b0, n0⟩, ⟨t1, d1, b1, n1⟩, ⟨t2, d2, b2, n2⟩, ⟨T, 0, b3, n3⟩] M T := by
  refine ⟨?_, rfl, rfl, rfl, rfl, ?_⟩
  · exact List.chain'_cons.2 ⟨h1, List.chain'_cons.2 ⟨h2,
      List.chain'_cons.2 ⟨h3, List.chain'_singleton _⟩⟩⟩
  · intro x hx
    simp only [List.mem_cons, List.not_mem_nil, or_false] at hx
    rcases hx with rfl | rfl | rfl | rfl
    exacts [hM, hd1, hd2, hM]

theorem fake_dc_no_avg_shallow (dc : divecomputer) (hA : dc.meandepth = 0)
    (hT : dc.duration ≠ 0) (hM : dc.maxdepth ≠ 0)
    (hcond : dc.maxdepth < 10000 ∨ dc.duration < 600) :
    fake_dc dc = { dc with
      sample := [⟨0, 0, -1, -1⟩,
        ⟨lrint ((dc.maxdepth : dbl) / noavg_slope dc.maxdepth dc.duration),
          dc.maxdepth, -1, -1⟩,
        ⟨dc.duration - lrint ((dc.maxdepth : dbl) / noavg_slope dc.maxdepth dc.duration),
          dc.maxdepth, -1, -1⟩,
        ⟨dc.duration, 0, -1, -1⟩, ⟨0, 0, -1, -1⟩, ⟨dc.duration, 0, -1, -1⟩],
      samples := 4, last_manual_time := dc.duration } := by
  have hlist : fill_samples_no_avg (skeleton dc.duration) dc.maxdepth dc.duration
      (noavg_slope dc.maxdepth dc.duration) =
      [⟨0, 0, -1, -1⟩,
        ⟨lrint ((dc.maxdepth : dbl) / noavg_slope dc.maxdepth dc.duration),
          dc.maxdepth, -1, -1⟩,
        ⟨dc.duration - lrint ((dc.maxdepth : dbl) / noavg_slope dc.maxdepth dc.duration),
          dc.maxdepth, -1, -1⟩,
        ⟨0, 0, -1, -1⟩, ⟨0, 0, -1, -1⟩, ⟨dc.duration, 0, -1, -1⟩] := by
    unfold fill_samples_no_avg
    rw [if_pos hcond]
    rfl
  simp only [fake_dc]
  rw [if_neg (show ¬ (dc.duration = 0 ∨ dc.maxdepth = 0) from fun hc => hc.elim hT hM),
    if_pos hA, hlist]
  rw [if_pos (show (getS [⟨0, 0, -1, -1⟩,
        ⟨lrint ((dc.maxdepth : dbl) / noavg_slope dc.maxdepth dc.duration),
          dc.maxdepth, -1, -1⟩,
        ⟨dc.duration - lrint ((dc.maxdepth : dbl) / noavg_slope dc.maxdepth dc.duration),
          dc.maxdepth, -1, -1⟩,
        ⟨0, 0, -1, -1⟩, ⟨0, 0, -1, -1⟩, ⟨dc.duration, 0, -1, -1⟩] 3).time = 0 from rfl)]
  rfl

theorem upd_skeleton (max_t tA tB tC tD dA dB dC dD : ℤ) :
    upd (upd (upd (upd (skeleton max_t)
      1 (fun x => { x with time := tA, depth := dA }))
      2 (fun x => { x with time := tB, depth := dB }))
      3 (fun x => { x with time := tC, depth := dC }))
      4 (fun x => { x with time := tD, depth := dD }) =
      [⟨0, 0, -1, -1⟩, ⟨tA, dA, -1, -1⟩, ⟨tB, dB, -1, -1⟩,
       ⟨tC, dC, -1, -1⟩, ⟨tD, dD, -1, -1⟩, ⟨max_t, 0, -1, -1⟩] := rfl

theorem fill_samples_profileOK {max_d avg_d max_t : ℤ} {slope d_frac : dbl}
    {s : List sample} (hM : 0 ≤ max_d) (hdp : d_frac.posden)
    (hfle : d_frac.num ≤ d_frac.den)
    (h : fill_samples (skeleton max_t) max_d avg_d max_t slope d_frac = some s) :
    profileOK s max_d max_t ∧ s.take 6 = s := by
  have hdev : lrint ((max_d : dbl) * d_frac) ≤ max_d := by
    rw [lrint_toRat (dbl.posden_mul (dbl.posden_intCast max_d) hdp),
      dbl.toRat_mul, dbl.toRat_intCast]
    refine rheQ_le_int ?_
    have hf1 : d_frac.toRat ≤ 1 := by
      unfold dbl.toRat
      rw [div_le_one (by exact_mod_cast hdp)]
      exact_mod_cast hfle
    have hMQ : (0 : ℚ) ≤ (max_d : ℚ) := by exact_mod_cast hM
    calc (max_d : ℚ) * d_frac.toRat ≤ (max_d : ℚ) * 1 := by
          exact mul_le_mul_of_nonneg_left hf1 hMQ
      _ = (max_d : ℚ) := mul_one _
  simp only [fill_samples] at h
  split_ifs at h with hc
  all_goals first
  | exact Option.noConfusion h
  | (rw [upd_skeleton, Option.some_inj] at h
     subst h
     push_neg at hc
     obtain ⟨hc1, hc2, hc3, hc4, hc5⟩ := hc
     exact ⟨profileOK_six hc1 hc2 hc3 hc4 hc5 le_rfl le_rfl hdev hdev hM, rfl⟩)

/-- C1 counterexample: for `avg_depth = 0`, `max_depth = 30000`,
`max_time = 600` (deep-and-long branch, slope `2*max_d/max_t = 100` mm/s,
exact in IEEE doubles too) the six counted samples have times
0, 300, 120, 370, 550, 600: sample 1 is later than sample 2, so the counted
sequence is not non-decreasing although the sample count is 6. -/
theorem fake_dc_profile_cex :
    (fake_dc ⟨600, 30000, 0, 0, [], 0, 0, none, none, none⟩).samples ≠ 0 ∧
    ¬ profileOK ((fake_dc ⟨600, 30000, 0, 0, [], 0, 0, none, none, none⟩).sample.take
        (fake_dc ⟨600, 30000, 0, 0, [], 0, 0, none, none, none⟩).samples) 30000 600 := by
  decide

/-- C1 amended: for non-negative inputs with `max_time ≠ 0` and
`max_depth ≠ 0`, the counted samples of the synthesized profile have
non-decreasing times, first sample `(0, 0)`, last counted sample
`(max_time, 0)` and all depths at most `max_depth` — unconditionally in the
average-depth branch (whether an attempt is accepted or all three fail), and
in the no-average-depth branch provided the rounded descent duration
`t1 = lrint(max_depth/slope)` fits: `2*t1 + 180 ≤ max_time` in the
deep-and-long case and `2*t1 ≤ max_time` in the shallow-or-short case
(otherwise the bottom-phase times can run backwards, as the counterexample
shows). -/
theorem fake_dc_profile_invariants (dc : divecomputer)
    (hT : 1 ≤ dc.duration) (hM : 1 ≤ dc.maxdepth)
    (hno : dc.meandepth = 0 →
      2 * lrint ((dc.maxdepth : dbl) / noavg_slope dc.maxdepth dc.duration) +
        (if 10000 ≤ dc.maxdepth ∧ 600 ≤ dc.duration then 180 else 0) ≤ dc.duration) :
    profileOK ((fake_dc dc).sample.take (fake_dc dc).samples) dc.maxdepth dc.duration := by
  by_cases hA : dc.meandepth = 0
  · have hbound := hno hA
    by_cases hdl : 10000 ≤ dc.maxdepth ∧ 600 ≤ dc.duration
    · rw [if_pos hdl] at hbound
      rw [fake_dc_no_avg_deep dc hA hdl.1 hdl.2]
      have ht5 := lrint_5000_noavg_bounds dc.maxdepth dc.duration
      have ht51 := lrint_5000_le_maxd_noavg dc.maxdepth dc.duration (by omega)
      have ht1n := lrint_maxd_noavg_nonneg dc.maxdepth dc.duration (by omega)
      exact profileOK_six ht1n (by omega) (by omega) (by omega) (by omega)
        le_rfl le_rfl (by omega) (by omega) (by omega)
    · rw [if_neg hdl] at hbound
      rw [fake_dc_no_avg_shallow dc hA (by omega) (by omega) (by omega)]
      have ht1n := lrint_maxd_noavg_nonneg dc.maxdepth dc.duration (by omega)
      exact profileOK_four ht1n (by omega) (by omega) le_rfl le_rfl (by omega)
  · cases hf1 : fill_samples (skeleton dc.duration) dc.maxdepth
        (sanitize_avg dc.maxdepth dc.meandepth) dc.duration
        ((5000 : dbl) / (60 : dbl)) ((33 : dbl) / (100 : dbl)) with
    | some s =>
      have hres : fake_dc dc =
          { dc with sample := s, samples := 6, last_manual_time := dc.duration } := by
        simp only [fake_dc]
        rw [if_neg (show ¬ (dc.duration = 0 ∨ dc.maxdepth = 0) by omega), if_neg hA, hf1]
      rw [hres]
      obtain ⟨hOK, htake⟩ := fill_samples_profileOK (by omega) (by decide) (by decide) hf1
      show profileOK (s.take 6) dc.maxdepth dc.duration
      rw [htake]
      exact hOK
    | none =>
      cases hf2 : fill_samples (skeleton dc.duration) dc.maxdepth
          (sanitize_avg dc.maxdepth dc.meandepth) dc.duration
          ((10000 : dbl) / (60 : dbl)) ((10 : dbl) / (100 : dbl)) with
      | some s =>
        have hres : fake_dc dc =
            { dc with sample := s, samples := 6, last_manual_time := dc.duration } := by
          simp only [fake_dc]
          rw [if_neg (show ¬ (dc.duration = 0 ∨ dc.maxdepth = 0) by omega), if_neg hA,
            hf1, hf2]
        rw [hres]
        obtain ⟨hOK, htake⟩ := fill_samples_profileOK (by omega) (by decide) (by decide) hf2
        show profileOK (s.take 6) dc.maxdepth dc.duration
        rw [htake]
        exact hOK
      | none =>
        cases hf3 : fill_samples (skeleton dc.duration) dc.maxdepth
            (sanitize_avg dc.maxdepth dc.meandepth) dc.duration
            (10000 : dbl) ((1 : dbl) / (100 : dbl)) with
        | some s =>
          have hres : fake_dc dc =
              { dc with sample := s, samples := 6, last_manual_time := dc.duration } := by
            simp only [fake_dc]
            rw [if_neg (show ¬ (dc.duration = 0 ∨ dc.maxdepth = 0) by omega), if_neg hA,
              hf1, hf2, hf3]
          rw [hres]
          obtain ⟨hOK, htake⟩ := fill_samples_profileOK (by omega) (by decide) (by decide) hf3
          show profileOK (s.take 6) dc.maxdepth dc.duration
          rw [htake]
          exact hOK
        | none =>
          have hres : fake_dc dc = { dc with sample := skeleton dc.duration, samples := 6, last_manual_time := dc.duration } := by
            simp only [fake_dc]
            rw [if_neg (show ¬ (dc.duration = 0 ∨ dc.maxdepth = 0) by omega), if_neg hA,
              hf1, hf2, hf3]
          rw [hres]
          exact profileOK_six le_rfl le_rfl le_rfl le_rfl (by omega)
            (by omega) (by omega) (by omega) (by omega) (by omega)

/-- C1 amended witness (the spec's worked example `max_depth = 18000`,
`avg_depth = 9000`, `max_time = 3000`, average-depth branch). -/
theorem fake_dc_profile_invariants_witness :
    (1 ≤ (⟨3000, 18000, 9000, 0, [], 0, 0, none, none, none⟩ : divecomputer).duration ∧
      1 ≤ (⟨3000, 18000, 9000, 0, [], 0, 0, none, none, none⟩ : divecomputer).maxdepth ∧
      ((⟨3000, 18000, 9000, 0, [], 0, 0, none, none, none⟩ : divecomputer).meandepth = 0 →
        2 * lrint ((18000 : ℤ) / noavg_slope 18000 3000) +
          (if 10000 ≤ (18000 : ℤ) ∧ 600 ≤ (3000 : ℤ) then 180 else 0) ≤ 3000)) ∧
    profileOK ((fake_dc ⟨3000, 18000, 9000, 0, [], 0, 0, none, none, none⟩).sample.take
      (fake_dc ⟨3000, 18000, 9000, 0, [], 0, 0, none, none, none⟩).samples) 18000 3000 :=
  ⟨by decide,
    fake_dc_profile_invariants _ (by decide) (by decide) (by decide)⟩

/-- C2 counterexample: at the spec's own worked example `max_depth = 18000`,
`avg_depth = 9000`, `max_time = 3000`, attempt 1 (slope 5000/60, d_frac 0.33)
is accepted with samples (0,0), (216,18000), (868,18000), (1013,5940),
(2929,5940), (3000,0); twice the trapezoidal area is 54015120 while
`2*avg_depth*max_time = 54000000`: the area misses `avg_depth*max_time` by
7560 mm·s, far beyond "a few mm·s" (even a 10 mm·s reading of "a few"). -/
theorem fill_samples_area_cex :
    fill_samples (skeleton 3000) 18000 9000 3000
        ((5000 : dbl) / (60 : dbl)) ((33 : dbl) / (100 : dbl)) =
      some [⟨0, 0, -1, -1⟩, ⟨216, 18000, -1, -1⟩, ⟨868, 18000, -1, -1⟩,
        ⟨1013, 5940, -1, -1⟩, ⟨2929, 5940, -1, -1⟩, ⟨3000, 0, -1, -1⟩] ∧
    area2 [⟨0, 0, -1, -1⟩, ⟨216, 18000, -1, -1⟩, ⟨868, 18000, -1, -1⟩,
        ⟨1013, 5940, -1, -1⟩, ⟨2929, 5940, -1, -1⟩, ⟨3000, 0, -1, -1⟩] -
      2 * 9000 * 3000 = 15120 ∧
    ¬ |area2 [⟨0, 0, -1, -1⟩, ⟨216, 18000, -1, -1⟩, ⟨868, 18000, -1, -1⟩,
        ⟨1013, 5940, -1, -1⟩, ⟨2929, 5940, -1, -1⟩, ⟨3000, 0, -1, -1⟩] -
      2 * 9000 * 3000| ≤ 2 * 10 := by
  refine ⟨by decide, by decide, ?_⟩
  decide

theorem abs_prod_le {x y a b : ℚ} (hx : |x| ≤ a) (hy : |y| ≤ b) : |x * y| ≤ a * b := by
  rw [abs_mul]
  exact mul_le_mul hx hy (abs_nonneg _) ((abs_nonneg x).trans hx)

theorem rheQ_abs_sub (q : ℚ) : |(rheQ q : ℚ) - q| ≤ 1/2 := by
  have h := rheQ_bounds q
  rw [abs_le]
  constructor <;> linarith [h.1, h.2]

/-- C2 amended: whenever the solver accepts (any slope > 0 and
0 < d_frac < 1, so in particular attempts 1 and 2), the trapezoidal area
under the six produced samples matches `avg_depth * max_time` within
`(3*max_depth + 2*max_time + 2)/2` mm·s (stated below on twice the area to
stay in integers).  The tolerance is proportional to `max_depth` and
`max_time` — each breakpoint is rounded to a whole second and the plateau
depth to a whole millimetre — not "a few mm·s". -/
theorem fill_samples_area (max_d avg_d max_t : ℤ) (slope d_frac : dbl)
    (s : List sample) (hM : 0 < max_d) (hsp : slope.posden) (hsn : 0 < slope.num)
    (hdp : d_frac.posden) (hfn : 0 < d_frac.num) (hfd : d_frac.num < d_frac.den)
    (h : fill_samples (skeleton max_t) max_d avg_d max_t slope d_frac = some s) :
    |area2 s - 2 * avg_d * max_t| ≤ 3 * max_d + 2 * max_t + 2 := by
  have hMQ : (0 : ℚ) < (max_d : ℚ) := by exact_mod_cast hM
  have hfQ0 : 0 < d_frac.toRat := by
    unfold dbl.toRat
    exact div_pos (by exact_mod_cast hfn) (by exact_mod_cast hdp)
  have hfQ1 : d_frac.toRat < 1 := by
    unfold dbl.toRat
    rw [div_lt_one (by exact_mod_cast hdp)]
    exact_mod_cast hfd
  simp only [fill_samples] at h
  split_ifs at h with hc
  all_goals try exact Option.noConfusion h
  rw [upd_skeleton, Option.some_inj] at h
  subst h
  push_neg at hc
  obtain ⟨hc1, hc2, hc3, hc4, hc5⟩ := hc
  set T1 : ℤ := lrint ((max_d : dbl) / slope) with hT1
  set TF : dbl := (max_t : dbl) * ((1 : dbl) - (avg_d : dbl) / (max_d : dbl)) with hTFd
  set T4 : ℤ := lrint ((max_t : dbl) - (T1 : dbl) * d_frac) with hT4
  set T3 : ℤ := lrint ((T4 : dbl) - (TF - (T1 : dbl)) / ((1 : dbl) - d_frac)) with hT3
  set T2 : ℤ := lrint ((T3 : dbl) - (T1 : dbl) * ((1 : dbl) - d_frac)) with hT2
  set D : ℤ := lrint ((max_d : dbl) * d_frac) with hD
  have pdM : (max_d : dbl).posden := dbl.posden_intCast _
  have pdT : (max_t : dbl).posden := dbl.posden_intCast _
  have pdA : (avg_d : dbl).posden := dbl.posden_intCast _
  have pd1 : (1 : dbl).posden := dbl.posden_ofNat 1
  have pdOneF : ((1 : dbl) - d_frac).posden := dbl.posden_sub pd1 hdp
  have pdTF : TF.posden := by
    rw [hTFd]
    exact dbl.posden_mul pdT (dbl.posden_sub pd1 (dbl.posden_div pdA _))
  have hTFQ : TF.toRat = (max_t : ℚ) * (1 - (avg_d : ℚ) / (max_d : ℚ)) := by
    rw [hTFd, dbl.toRat_mul, dbl.toRat_sub pd1 (dbl.posden_div pdA _), dbl.toRat_div,
      dbl.toRat_intCast, dbl.toRat_intCast, dbl.toRat_intCast, dbl.toRat_ofNat]
    norm_num
  have hOneFQ : ((1 : dbl) - d_frac).toRat = 1 - d_frac.toRat := by
    rw [dbl.toRat_sub pd1 hdp, dbl.toRat_ofNat]
    norm_num
  have hT4R : T4 = rheQ ((max_t : ℚ) - ((T1 : ℤ) : ℚ) * d_frac.toRat) := by
    rw [hT4, lrint_toRat (dbl.posden_sub pdT (dbl.posden_mul (dbl.posden_intCast _) hdp)),
      dbl.toRat_sub pdT (dbl.posden_mul (dbl.posden_intCast _) hdp), dbl.toRat_mul,
      dbl.toRat_intCast, dbl.toRat_intCast]
  have hT3R : T3 = rheQ (((T4 : ℤ) : ℚ) - (TF.toRat - ((T1 : ℤ) : ℚ)) / (1 - d_frac.toRat)) := by
    rw [hT3, lrint_toRat (dbl.posden_sub (dbl.posden_intCast _)
        (dbl.posden_div (dbl.posden_sub pdTF (dbl.posden_intCast _)) _)),
      dbl.toRat_sub (dbl.posden_intCast _)
        (dbl.posden_div (dbl.posden_sub pdTF (dbl.posden_intCast _)) _),
      dbl.toRat_div, dbl.toRat_sub pdTF (dbl.posden_intCast _),
      dbl.toRat_intCast, dbl.toRat_intCast, hOneFQ]
  have hT2R : T2 = rheQ (((T3 : ℤ) : ℚ) - ((T1 : ℤ) : ℚ) * (1 - d_frac.toRat)) := by
    rw [hT2, lrint_toRat (dbl.posden_sub (dbl.posden_intCast _)
        (dbl.posden_mul (dbl.posden_intCast _) pdOneF)),
      dbl.toRat_sub (dbl.posden_intCast _) (dbl.posden_mul (dbl.posden_intCast _) pdOneF),
      dbl.toRat_mul, dbl.toRat_intCast, dbl.toRat_intCast, hOneFQ]
  have hDR : D = rheQ ((max_d : ℚ) * d_frac.toRat) := by
    rw [hD, lrint_toRat (dbl.posden_mul pdM hdp), dbl.toRat_mul, dbl.toRat_intCast]
  have b4 : |((T4 : ℤ) : ℚ) - ((max_t : ℚ) - ((T1 : ℤ) : ℚ) * d_frac.toRat)| ≤ 1/2 := by
    rw [hT4R]
    exact rheQ_abs_sub _
  have b3 : |((T3 : ℤ) : ℚ) - (((T4 : ℤ) : ℚ) - (TF.toRat - ((T1 : ℤ) : ℚ)) / (1 - d_frac.toRat))| ≤ 1/2 := by
    rw [hT3R]
    exact rheQ_abs_sub _
  have b2 : |((T2 : ℤ) : ℚ) - (((T3 : ℤ) : ℚ) - ((T1 : ℤ) : ℚ) * (1 - d_frac.toRat))| ≤ 1/2 := by
    rw [hT2R]
    exact rheQ_abs_sub _
  have bD : |((D : ℤ) : ℚ) - (max_d : ℚ) * d_frac.toRat| ≤ 1/2 := by
    rw [hDR]
    exact rheQ_abs_sub _
  have d3 : |((T3 : ℤ) : ℚ) - (((max_t : ℚ) - ((T1 : ℤ) : ℚ) * d_frac.toRat) - (TF.toRat - ((T1 : ℤ) : ℚ)) / (1 - d_frac.toRat))| ≤ 1 := by
    have hs : ((T3 : ℤ) : ℚ) - (((max_t : ℚ) - ((T1 : ℤ) : ℚ) * d_frac.toRat) - (TF.toRat - ((T1 : ℤ) : ℚ)) / (1 - d_frac.toRat)) =
        (((T3 : ℤ) : ℚ) - (((T4 : ℤ) : ℚ) - (TF.toRat - ((T1 : ℤ) : ℚ)) / (1 - d_frac.toRat))) +
          (((T4 : ℤ) : ℚ) - ((max_t : ℚ) - ((T1 : ℤ) : ℚ) * d_frac.toRat)) := by ring
    rw [hs]
    exact le_trans (abs_add _ _) (by linarith [b3, b4])
  have d2 : |((T2 : ℤ) : ℚ) - ((((max_t : ℚ) - ((T1 : ℤ) : ℚ) * d_frac.toRat) - (TF.toRat - ((T1 : ℤ) : ℚ)) / (1 - d_frac.toRat)) - ((T1 : ℤ) : ℚ) * (1 - d_frac.toRat))| ≤ 3/2 := by
    have hs : ((T2 : ℤ) : ℚ) - ((((max_t : ℚ) - ((T1 : ℤ) : ℚ) * d_frac.toRat) - (TF.toRat - ((T1 : ℤ) : ℚ)) / (1 - d_frac.toRat)) - ((T1 : ℤ) : ℚ) * (1 - d_frac.toRat)) =
        (((T2 : ℤ) : ℚ) - (((T3 : ℤ) : ℚ) - ((T1 : ℤ) : ℚ) * (1 - d_frac.toRat))) +
          (((T3 : ℤ) : ℚ) - (((max_t : ℚ) - ((T1 : ℤ) : ℚ) * d_frac.toRat) - (TF.toRat - ((T1 : ℤ) : ℚ)) / (1 - d_frac.toRat))) := by ring
    rw [hs]
    exact le_trans (abs_add _ _) (by linarith [b2, d3])
  have iT0 : (0 : ℤ) ≤ max_t := by omega
  have cT : (0 : ℚ) ≤ (max_t : ℚ) := by exact_mod_cast iT0
  have cT2a : (0 : ℚ) ≤ ((T2 : ℤ) : ℚ) := by exact_mod_cast (show (0:ℤ) ≤ T2 by omega)
  have cT2b : ((T2 : ℤ) : ℚ) ≤ (max_t : ℚ) := by exact_mod_cast (show T2 ≤ max_t by omega)
  have cT3a : (0 : ℚ) ≤ ((T3 : ℤ) : ℚ) := by exact_mod_cast (show (0:ℤ) ≤ T3 by omega)
  have cT3b : ((T3 : ℤ) : ℚ) ≤ (max_t : ℚ) := by exact_mod_cast (show T3 ≤ max_t by omega)
  have cT4a : (0 : ℚ) ≤ ((T4 : ℤ) : ℚ) := by exact_mod_cast (show (0:ℤ) ≤ T4 by omega)
  have cT4b : ((T4 : ℤ) : ℚ) ≤ (max_t : ℚ) := by exact_mod_cast (show T4 ≤ max_t by omega)
  have u4 : |((max_t : ℚ) - ((T1 : ℤ) : ℚ) * d_frac.toRat)| ≤ (max_t : ℚ) + 1/2 := by
    rw [abs_le] at b4 ⊢
    constructor <;> linarith [b4.1, b4.2]
  have u3 : |(((max_t : ℚ) - ((T1 : ℤ) : ℚ) * d_frac.toRat) - (TF.toRat - ((T1 : ℤ) : ℚ)) / (1 - d_frac.toRat))| ≤ (max_t : ℚ) + 1 := by
    rw [abs_le] at d3 ⊢
    constructor <;> linarith [d3.1, d3.2]
  have u2 : |((((max_t : ℚ) - ((T1 : ℤ) : ℚ) * d_frac.toRat) - (TF.toRat - ((T1 : ℤ) : ℚ)) / (1 - d_frac.toRat)) - ((T1 : ℤ) : ℚ) * (1 - d_frac.toRat))| ≤ (max_t : ℚ) + 3/2 := by
    rw [abs_le] at d2 ⊢
    constructor <;> linarith [d2.1, d2.2]
  have iD0 : (0 : ℤ) ≤ D := by
    rw [hDR]
    exact rheQ_nonneg (mul_nonneg hMQ.le hfQ0.le)
  have iDM : D ≤ max_d := by
    rw [hDR]
    refine rheQ_le_int ?_
    calc (max_d : ℚ) * d_frac.toRat ≤ (max_d : ℚ) * 1 := mul_le_mul_of_nonneg_left hfQ1.le hMQ.le
      _ = (max_d : ℚ) := mul_one _
  have cD0 : (0 : ℚ) ≤ ((D : ℤ) : ℚ) := by exact_mod_cast iD0
  have cDM : ((D : ℤ) : ℚ) ≤ (max_d : ℚ) := by exact_mod_cast iDM
  have hI : -(max_d : ℚ) * ((T1 : ℤ) : ℚ) + ((max_d : ℚ) - (max_d : ℚ) * d_frac.toRat) * (((((max_t : ℚ) - ((T1 : ℤ) : ℚ) * d_frac.toRat) - (TF.toRat - ((T1 : ℤ) : ℚ)) / (1 - d_frac.toRat)) - ((T1 : ℤ) : ℚ) * (1 - d_frac.toRat)) + (((max_t : ℚ) - ((T1 : ℤ) : ℚ) * d_frac.toRat) - (TF.toRat - ((T1 : ℤ) : ℚ)) / (1 - d_frac.toRat))) +
      ((max_d : ℚ) * d_frac.toRat) * ((max_t : ℚ) - ((T1 : ℤ) : ℚ) * d_frac.toRat) + ((max_d : ℚ) * d_frac.toRat) * (max_t : ℚ) = 2 * (avg_d : ℚ) * (max_t : ℚ) := by
    rw [hTFQ]
    have hMne : (max_d : ℚ) ≠ 0 := ne_of_gt hMQ
    have h1f : (1 : ℚ) - d_frac.toRat ≠ 0 := ne_of_gt (by linarith)
    field_simp
    ring
  have harea : area2 [⟨0, 0, -1, -1⟩, ⟨T1, max_d, -1, -1⟩, ⟨T2, max_d, -1, -1⟩,
      ⟨T3, D, -1, -1⟩, ⟨T4, D, -1, -1⟩, ⟨max_t, 0, -1, -1⟩] =
      -max_d * T1 + (max_d - D) * (T2 + T3) + D * T4 + D * max_t := by
    simp [area2]
    ring
  rw [harea]
  rw [← @Int.cast_le ℚ, Int.cast_abs]
  have ecast : ((-max_d * T1 + (max_d - D) * (T2 + T3) + D * T4 + D * max_t -
      2 * avg_d * max_t : ℤ) : ℚ) =
      (-(max_d : ℚ) * ((T1 : ℤ) : ℚ) + ((max_d : ℚ) - ((D : ℤ) : ℚ)) * (((T2 : ℤ) : ℚ) + ((T3 : ℤ) : ℚ)) +
        ((D : ℤ) : ℚ) * ((T4 : ℤ) : ℚ) + ((D : ℤ) : ℚ) * (max_t : ℚ)) - 2 * (avg_d : ℚ) * (max_t : ℚ) := by
    push_cast
    ring
  rw [ecast]
  have hsplit : (-(max_d : ℚ) * ((T1 : ℤ) : ℚ) + ((max_d : ℚ) - ((D : ℤ) : ℚ)) * (((T2 : ℤ) : ℚ) + ((T3 : ℤ) : ℚ)) +
        ((D : ℤ) : ℚ) * ((T4 : ℤ) : ℚ) + ((D : ℤ) : ℚ) * (max_t : ℚ)) - 2 * (avg_d : ℚ) * (max_t : ℚ) =
      ((max_d : ℚ) - ((D : ℤ) : ℚ)) * ((((T2 : ℤ) : ℚ) - ((((max_t : ℚ) - ((T1 : ℤ) : ℚ) * d_frac.toRat) - (TF.toRat - ((T1 : ℤ) : ℚ)) / (1 - d_frac.toRat)) - ((T1 : ℤ) : ℚ) * (1 - d_frac.toRat))) + (((T3 : ℤ) : ℚ) - (((max_t : ℚ) - ((T1 : ℤ) : ℚ) * d_frac.toRat) - (TF.toRat - ((T1 : ℤ) : ℚ)) / (1 - d_frac.toRat)))) +
      ((max_d : ℚ) * d_frac.toRat - ((D : ℤ) : ℚ)) * (((((max_t : ℚ) - ((T1 : ℤ) : ℚ) * d_frac.toRat) - (TF.toRat - ((T1 : ℤ) : ℚ)) / (1 - d_frac.toRat)) - ((T1 : ℤ) : ℚ) * (1 - d_frac.toRat)) + (((max_t : ℚ) - ((T1 : ℤ) : ℚ) * d_frac.toRat) - (TF.toRat - ((T1 : ℤ) : ℚ)) / (1 - d_frac.toRat))) +
      ((D : ℤ) : ℚ) * (((T4 : ℤ) : ℚ) - ((max_t : ℚ) - ((T1 : ℤ) : ℚ) * d_frac.toRat)) +
      (((D : ℤ) : ℚ) - (max_d : ℚ) * d_frac.toRat) * (((max_t : ℚ) - ((T1 : ℤ) : ℚ) * d_frac.toRat) + (max_t : ℚ)) := by
    linear_combination hI
  rw [hsplit]
  have B1 : |((max_d : ℚ) - ((D : ℤ) : ℚ)) * ((((T2 : ℤ) : ℚ) - ((((max_t : ℚ) - ((T1 : ℤ) : ℚ) * d_frac.toRat) - (TF.toRat - ((T1 : ℤ) : ℚ)) / (1 - d_frac.toRat)) - ((T1 : ℤ) : ℚ) * (1 - d_frac.toRat))) + (((T3 : ℤ) : ℚ) - (((max_t : ℚ) - ((T1 : ℤ) : ℚ) * d_frac.toRat) - (TF.toRat - ((T1 : ℤ) : ℚ)) / (1 - d_frac.toRat))))| ≤
      (max_d : ℚ) * (5/2) := by
    refine abs_prod_le ?_ ?_
    · rw [abs_of_nonneg (by linarith)]
      linarith
    · exact le_trans (abs_add _ _) (by linarith [d2, d3])
  have B2 : |((max_d : ℚ) * d_frac.toRat - ((D : ℤ) : ℚ)) * (((((max_t : ℚ) - ((T1 : ℤ) : ℚ) * d_frac.toRat) - (TF.toRat - ((T1 : ℤ) : ℚ)) / (1 - d_frac.toRat)) - ((T1 : ℤ) : ℚ) * (1 - d_frac.toRat)) + (((max_t : ℚ) - ((T1 : ℤ) : ℚ) * d_frac.toRat) - (TF.toRat - ((T1 : ℤ) : ℚ)) / (1 - d_frac.toRat)))| ≤ (1/2) * (2 * (max_t : ℚ) + 5/2) := by
    refine abs_prod_le ?_ ?_
    · rw [abs_sub_comm]
      exact bD
    · exact le_trans (abs_add _ _) (by linarith [u2, u3])
  have B3 : |((D : ℤ) : ℚ) * (((T4 : ℤ) : ℚ) - ((max_t : ℚ) - ((T1 : ℤ) : ℚ) * d_frac.toRat))| ≤ (max_d : ℚ) * (1/2) := by
    refine abs_prod_le ?_ b4
    rw [abs_of_nonneg cD0]
    exact cDM
  have B4 : |(((D : ℤ) : ℚ) - (max_d : ℚ) * d_frac.toRat) * (((max_t : ℚ) - ((T1 : ℤ) : ℚ) * d_frac.toRat) + (max_t : ℚ))| ≤ (1/2) * (2 * (max_t : ℚ) + 1/2) := by
    refine abs_prod_le bD ?_
    refine le_trans (abs_add _ _) ?_
    rw [abs_of_nonneg cT]
    linarith [u4]
  push_cast
  refine le_trans (abs_add _ _) ?_
  refine le_trans (add_le_add_right (abs_add _ _) _) ?_
  refine le_trans (add_le_add_right (add_le_add_right (abs_add _ _) _) _) ?_
  linarith [B1, B2, B3, B4, hMQ, cT]

/-- C2 amended witness (attempt 1 accepted at the spec's worked example;
the area defect there is 15120 ≤ 3*18000 + 2*3000 + 2 = 60002). -/
theorem fill_samples_area_witness :
    ((0 : ℤ) < 18000 ∧ ((5000 : dbl) / (60 : dbl)).posden ∧
      0 < ((5000 : dbl) / (60 : dbl)).num ∧
      ((33 : dbl) / (100 : dbl)).posden ∧ 0 < ((33 : dbl) / (100 : dbl)).num ∧
      ((33 : dbl) / (100 : dbl)).num < ((33 : dbl) / (100 : dbl)).den ∧
      fill_samples (skeleton 3000) 18000 9000 3000
          ((5000 : dbl) / (60 : dbl)) ((33 : dbl) / (100 : dbl)) =
        some [⟨0, 0, -1, -1⟩, ⟨216, 18000, -1, -1⟩, ⟨868, 18000, -1, -1⟩,
          ⟨1013, 5940, -1, -1⟩, ⟨2929, 5940, -1, -1⟩, ⟨3000, 0, -1, -1⟩]) ∧
    |area2 [⟨0, 0, -1, -1⟩, ⟨216, 18000, -1, -1⟩, ⟨868, 18000, -1, -1⟩,
        ⟨1013, 5940, -1, -1⟩, ⟨2929, 5940, -1, -1⟩, ⟨3000, 0, -1, -1⟩] -
      2 * 9000 * 3000| ≤ 3 * 18000 + 2 * 3000 + 2 :=
  ⟨by decide,
    fill_samples_area 18000 9000 3000 ((5000 : dbl) / (60 : dbl))
      ((33 : dbl) / (100 : dbl))
      [⟨0, 0, -1, -1⟩, ⟨216, 18000, -1, -1⟩, ⟨868, 18000, -1, -1⟩,
        ⟨1013, 5940, -1, -1⟩, ⟨2929, 5940, -1, -1⟩, ⟨3000, 0, -1, -1⟩]
      (by decide) (by decide) (by decide) (by decide) (by decide) (by decide) (by decide)⟩
